import Mathlib

/-!
Verification of the layered user-registration service in `src/main.go`.

The service is a stack of components, each embedded below as a Lean
function over an explicit state:

* `userDb.Create` / `userDb.GetAll` — the sqlite-backed persistence store
  (table `users` with `email VARCHAR(255) UNIQUE` and autoincrement ids,
  per `userDb.Migrate`).  The table contents, the autoincrement counter
  and an availability flag (modelling sqlite I/O failure) form `DBState`.
  `SELECT` does not modify the table, so `userDb.GetAll` is a pure read.
* `cache.Set` / `cache.Get` / `cache.Delete` — the redis-backed cache.
  `CacheState` holds a transport-availability flag, the configured
  expiration (`NewCache` sets 5 minutes) and the key-value table with
  absolute expiry instants; operations take the current time `now : Nat`
  (seconds).  Redis `GET` does not modify the store, so `cache.Get` is a
  pure read.
* `proxyUserRepo.Create` / `proxyUserRepo.GetAll` — the cache-aside proxy.
* `userService.Create` / `userService.GetAll` — age validation.
* `userController.GetAll` — the HTTP handler for `GET /users`.

Serialized cache payloads are modelled by `CacheVal`: `encoding/json`
encoding of a `[]User` is injective and decodes back to the same list, so
a payload is either the encoding of some user list (`usersJson`) or any
other byte string (`rawOther`), which fails to decode.  A Go `[]User`
slice in this program is nil exactly when it is empty (`userDb.GetAll`
builds it by `append` from nil, and decoding the cached `null` yields
nil), and `encoding/json` renders a nil slice as `null` — this is made
explicit in `goEncodeUsers`.  Go `int` values are modelled as `Int`.
-/

/-- The `User` model (`src/main.go` lines 110-116). -/
structure User where
  id : Int
  name : String
  password : String
  email : String
  age : Int
deriving Repr, DecidableEq

/-- Error taxonomy of the spec, one constructor per `error` site in the
source: `validationFailure` = "возраст пользователя меньше 18 лет"
(`userService.Create`), `constraintViolation` = sqlite UNIQUE violation
surfaced by `userDb.Create`, `ioFailure` = transport/disk failure from
sqlite or redis, `notFound` = `redis.Nil` on `Get`, `decodeFailure` =
"failed to decode key" in `cache.Get`, `encodeFailure` = "failed to
encode value" in `cache.Set`. -/
inductive Err where
  | validationFailure
  | constraintViolation
  | ioFailure
  | notFound
  | decodeFailure
  | encodeFailure
deriving Repr, DecidableEq

/-- State of the sqlite store: the rows of the `users` table in insertion
order, the autoincrement counter (next id to assign), and whether the
database is reachable (`ok = false` makes every statement fail with an
I/O error). -/
structure DBState where
  users : List User
  nextId : Int
  ok : Bool
deriving Repr, DecidableEq

/-- `userDb.Create` (`src/main.go` lines 154-168): `INSERT INTO users
(name, password, email, age) VALUES (...)`.  The `UNIQUE` constraint on
`email` (from `userDb.Migrate`) rejects a duplicate email; on success the
row is stored with the autoincrement id, which `LastInsertId` returns. -/
def userDb.Create (u : User) (s : DBState) : Except Err Int × DBState :=
  if !s.ok then (.error .ioFailure, s)
  else if s.users.any (fun v => v.email == u.email) then
    (.error .constraintViolation, s)
  else
    (.ok s.nextId,
     { s with users := s.users ++ [{ u with id := s.nextId }],
              nextId := s.nextId + 1 })

/-- `userDb.GetAll` (`src/main.go` lines 170-187): `SELECT * FROM users`,
scanning every row; a pure read of the table. -/
def userDb.GetAll (s : DBState) : Except Err (List User) :=
  if !s.ok then .error .ioFailure else .ok s.users

/-- A serialized cache payload.  `usersJson l` is the `encoding/json`
encoding of the user list `l` (injective; `null` for the empty/nil list);
`rawOther` is any byte string that is not such an encoding. -/
inductive CacheVal where
  | usersJson : List User → CacheVal
  | rawOther : String → CacheVal
deriving Repr, DecidableEq

/-- A Go `interface{}` value passed to `cache.Set`: raw bytes (the
`value.([]byte)` assertion succeeds), a `[]User` (JSON-encodable), or a
value `encoding/json` cannot encode (e.g. a channel or function). -/
inductive GoValue where
  | rawBytes : CacheVal → GoValue
  | usersList : List User → GoValue
  | unencodable : GoValue
deriving Repr, DecidableEq

/-- `json.NewDecoder(...).Decode(&users)` on a cached payload. -/
def decodeUsers : CacheVal → Except Err (List User)
  | .usersJson l => .ok l
  | .rawOther _ => .error .decodeFailure

/-- The serialization step of `cache.Set` (`src/main.go` lines 208-217):
raw bytes are passed through, otherwise the value is JSON-encoded, which
fails exactly on unencodable values. -/
def encodeGoValue : GoValue → Except Err CacheVal
  | .rawBytes b => .ok b
  | .usersList l => .ok (.usersJson l)
  | .unencodable => .error .encodeFailure

/-- State of the redis cache: transport availability (`redisOk = false`
makes every redis command return an error), the expiration configured at
construction (`NewCache`: 5 minutes), and the key-value table mapping a
key to its payload and absolute expiry instant. -/
structure CacheState where
  redisOk : Bool
  dataExpiration : Nat
  entries : String → Option (CacheVal × Nat)

/-- Default expiration set by `NewCache` (`src/main.go` line 202):
5 minutes, in seconds. -/
def defaultDataExpiration : Nat := 300

/-- `cache.Set` (`src/main.go` lines 207-225): serialize the value
(returning the encoding error to the caller if that fails), then write it
to redis with the configured expiration; a redis write failure is only
logged — the function returns `nil` regardless. -/
def cache.Set (now : Nat) (key : String) (v : GoValue) (s : CacheState) :
    Except Err Unit × CacheState :=
  match encodeGoValue v with
  | .error e => (.error e, s)
  | .ok data =>
    if s.redisOk then
      (.ok (),
       { s with entries := fun k =>
          if k = key then some (data, now + s.dataExpiration) else s.entries k })
    else
      (.ok (), s)

/-- `cache.Get` (`src/main.go` lines 227-248): read the bytes of the key from
redis (`redis.Nil`, i.e. an absent or expired key, becomes a not-found
error; a transport failure becomes an I/O error), then JSON-decode them
into a `[]User` — the only decode target used in the program.  Redis
`GET` is a pure read. -/
def cache.Get (now : Nat) (key : String) (s : CacheState) :
    Except Err (List User) :=
  if !s.redisOk then .error .ioFailure
  else
    match s.entries key with
    | none => .error .notFound
    | some (v, expiry) =>
      if now < expiry then decodeUsers v else .error .notFound

/-- `cache.Delete` (`src/main.go` lines 250-257): `DEL key`; a redis
failure is logged and also returned to the caller. -/
def cache.Delete (key : String) (s : CacheState) :
    Except Err Unit × CacheState :=
  if s.redisOk then
    (.ok (), { s with entries := fun k => if k = key then none else s.entries k })
  else
    (.error .ioFailure, s)

/-- Combined state of the program: sqlite store plus redis cache. -/
structure SysState where
  db : DBState
  cache : CacheState

/-- `userRepo.Create` (`src/main.go` lines 273-275): plain delegation to
the store. -/
def userRepo.Create (u : User) (s : DBState) : Except Err Int × DBState :=
  userDb.Create u s

/-- `userRepo.GetAll` (`src/main.go` lines 277-279): plain delegation to
the store. -/
def userRepo.GetAll (s : DBState) : Except Err (List User) :=
  userDb.GetAll s

/-- `proxyUserRepo.Create` (`src/main.go` lines 291-303): delegate to the
store; on store failure return the error at once (the cache is not
touched); on success delete the cache key `"users"`, logging but ignoring
a deletion failure, and return the new id. -/
def proxyUserRepo.Create (u : User) (s : SysState) : Except Err Int × SysState :=
  match userRepo.Create u s.db with
  | (.error e, db1) => (.error e, { s with db := db1 })
  | (.ok id, db1) =>
    let c1 := (cache.Delete "users" s.cache).2
    (.ok id, { db := db1, cache := c1 })

/-- `proxyUserRepo.GetAll` (`src/main.go` lines 305-327): try
`cache.Get "users"`; on a hit return the decoded list at once; on any
cache error fall through to the store, and on store success best-effort
populate the cache (logging but ignoring a population failure).  The
final `Bool` records whether the store was accessed (whether
`p.repo.GetAll` was called). -/
def proxyUserRepo.GetAll (now : Nat) (s : SysState) :
    Except Err (List User) × SysState × Bool :=
  match cache.Get now "users" s.cache with
  | .ok users => (.ok users, s, false)
  | .error _ =>
    match userRepo.GetAll s.db with
    | .error e => (.error e, s, true)
    | .ok users =>
      let c1 := (cache.Set now "users" (.usersList users) s.cache).2
      (.ok users, { s with cache := c1 }, true)

/-- `userService.Create` (`src/main.go` lines 343-350): reject a user
younger than 18 before touching the repository, otherwise delegate to the
caching repository. -/
def userService.Create (u : User) (s : SysState) : Except Err Int × SysState :=
  if u.age < 18 then (.error .validationFailure, s)
  else proxyUserRepo.Create u s

/-- `userService.GetAll` (`src/main.go` lines 352-354): pure passthrough
to the caching repository. -/
def userService.GetAll (now : Nat) (s : SysState) :
    Except Err (List User) × SysState × Bool :=
  proxyUserRepo.GetAll now s

/-- Minimal JSON string quoting; escaping of special characters inside
the user-supplied strings is elided (no claim depends on it). -/
def quoteStr (x : String) : String := "\"" ++ x ++ "\""

/-- `encoding/json` rendering of one `User` value, field order as in the
struct tags: id, name, password, email, age. -/
def encodeUserJson (u : User) : String :=
  "\x7b\"id\":" ++ toString u.id ++
  ",\"name\":" ++ quoteStr u.name ++
  ",\"password\":" ++ quoteStr u.password ++
  ",\"email\":" ++ quoteStr u.email ++
  ",\"age\":" ++ toString u.age ++ "\x7d"

/-- `json.NewEncoder(w).Encode(users)` on the `[]User` reaching the
handler.  In this program that slice is nil exactly when the list is
empty (see the file comment), and `encoding/json` renders a nil slice as
`null`; `Encoder.Encode` appends a newline. -/
def goEncodeUsers : List User → String
  | [] => "null\n"
  | us => "[" ++ String.intercalate "," (us.map encodeUserJson) ++ "]\n"

/-- An HTTP response as produced by the handlers: status code, the
explicitly set `Content-Type` header (if any), body bytes. -/
structure HttpResponse where
  status : Nat
  contentType : Option String
  body : String
deriving Repr, DecidableEq

/-- `err.Error()` text written into plaintext error bodies (English
rendering of the source messages). -/
def errMessage : Err → String
  | .validationFailure => "user age is below 18"
  | .constraintViolation => "failed to insert user: UNIQUE constraint failed"
  | .ioFailure => "input/output error"
  | .notFound => "key users not found"
  | .decodeFailure => "failed to decode key users"
  | .encodeFailure => "failed to encode value"

/-- `userController.GetAll` (`src/main.go` lines 394-413): call the
service; on failure answer `500` with the error text; on success set
`Content-Type: application/json` and write the JSON encoding of the list
with status `200` (encoding a `[]User` of strings and ints never fails,
so the encoder-error branch is unreachable). -/
def userController.GetAll (now : Nat) (s : SysState) : HttpResponse × SysState :=
  match userService.GetAll now s with
  | (.error e, s1, _) => ({ status := 500, contentType := none, body := errMessage e }, s1)
  | (.ok users, s1, _) =>
    ({ status := 200, contentType := some "application/json",
       body := goEncodeUsers users }, s1)

/-- One interaction with the public service interface, or an environment
event making the store or the cache transport available/unavailable. -/
inductive Op where
  | create (u : User)
  | getAll (now : Nat)
  | setDbOk (b : Bool)
  | setRedisOk (b : Bool)

/-- Effect of one operation on the system state. -/
def stepOp (s : SysState) : Op → SysState
  | .create u => (userService.Create u s).2
  | .getAll now => (userService.GetAll now s).2.1
  | .setDbOk b => { s with db := { s.db with ok := b } }
  | .setRedisOk b => { s with cache := { s.cache with redisOk := b } }

/-- Run a sequence of operations through the service interface. -/
def runOps (s : SysState) (ops : List Op) : SysState := ops.foldl stepOp s

/-! ### Shared fixtures for concrete witnesses -/

/-- A valid adult user used in witnesses. -/
def alice : User := { id := 0, name := "Al", password := "x", email := "a@x.com", age := 21 }

/-- An underage user whose email equals that of `alice`. -/
def bob17 : User := { id := 0, name := "Bo", password := "y", email := "a@x.com", age := 17 }

/-- An adult user whose email equals that of `alice`. -/
def bob25 : User := { id := 0, name := "Bo", password := "y", email := "a@x.com", age := 25 }

/-- An empty, reachable cache with the default expiration. -/
def cache0 : CacheState :=
  { redisOk := true, dataExpiration := defaultDataExpiration, entries := fun _ => none }

/-- Fresh system state: empty store, empty cache. -/
def state0 : SysState := { db := { users := [], nextId := 1, ok := true }, cache := cache0 }

/-! ### Shape lemmas about the store and the proxy -/

/-- A failing `INSERT` leaves the table unchanged. -/
theorem userDb_Create_error (u : User) (d : DBState) (e : Err)
    (h : (userDb.Create u d).1 = .error e) : userDb.Create u d = (.error e, d) := by
  unfold userDb.Create at h ⊢
  split at h
  · simp_all
  · split at h
    · simp_all
    · simp at h

/-- Shape of a successful `INSERT`: the store was reachable, the new row
carries the autoincrement id, and the id is returned. -/
theorem userDb_Create_ok (u : User) (d : DBState) (id : Int) (d1 : DBState)
    (h : userDb.Create u d = (.ok id, d1)) :
    d.ok = true ∧ id = d.nextId ∧
      d1 = { users := d.users ++ [{ u with id := d.nextId }],
             nextId := d.nextId + 1, ok := d.ok } := by
  unfold userDb.Create at h
  split at h
  · simp at h
  · split at h
    · simp at h
    · rename_i hok _
      obtain ⟨h1, h2⟩ := Prod.mk.injEq .. ▸ h
      refine ⟨by simpa using hok, ?_, h2.symm⟩
      simpa using h1.symm

/-- The store state after `proxyUserRepo.Create` is the store state after
the underlying `userDb.Create`. -/
theorem proxyUserRepo_Create_db (u : User) (s : SysState) :
    (proxyUserRepo.Create u s).2.db = (userDb.Create u s.db).2 := by
  unfold proxyUserRepo.Create userRepo.Create
  rcases hc : userDb.Create u s.db with ⟨r, d1⟩
  cases r <;> simp [hc]

/-- Decomposition of a successful `proxyUserRepo.Create`. -/
theorem proxyUserRepo_Create_ok (u : User) (s : SysState) (id : Int) (s1 : SysState)
    (h : proxyUserRepo.Create u s = (.ok id, s1)) :
    userDb.Create u s.db = (.ok id, s1.db) ∧
      s1.cache = (cache.Delete "users" s.cache).2 := by
  unfold proxyUserRepo.Create userRepo.Create at h
  rcases hc : userDb.Create u s.db with ⟨r, d1⟩
  rw [hc] at h
  cases r with
  | error e => simp at h
  | ok id1 =>
    obtain ⟨h1, h2⟩ := Prod.mk.injEq .. ▸ h
    cases h1
    cases h2
    exact ⟨by simp [hc], rfl⟩

/-- Decomposition of a successful `userService.Create`: the age check
passed and the caching repository performed the create. -/
theorem userService_Create_ok (u : User) (s : SysState) (id : Int) (s1 : SysState)
    (h : userService.Create u s = (.ok id, s1)) :
    18 ≤ u.age ∧ proxyUserRepo.Create u s = (.ok id, s1) := by
  unfold userService.Create at h
  split at h
  · simp at h
  · rename_i hage
    exact ⟨by omega, h⟩

/-- A cache read never errors out of `proxyUserRepo.GetAll` once it
returns a decoded list: the hit is returned as-is, without store access
and without any state change. -/
theorem getAll_of_get_ok (now : Nat) (s : SysState) (l : List User)
    (h : cache.Get now "users" s.cache = .ok l) :
    proxyUserRepo.GetAll now s = (.ok l, s, false) := by
  unfold proxyUserRepo.GetAll
  rw [h]

/-- The store state is untouched by `proxyUserRepo.GetAll`. -/
theorem proxyUserRepo_GetAll_db (now : Nat) (s : SysState) :
    (proxyUserRepo.GetAll now s).2.1.db = s.db := by
  unfold proxyUserRepo.GetAll
  cases h : cache.Get now "users" s.cache with
  | ok l => rfl
  | error e =>
    cases h2 : userRepo.GetAll s.db with
    | error e2 => rfl
    | ok l => rfl

/-! ### Claims -/

/-- C2: a user younger than 18 is rejected by `userService.Create` with a
validation failure, and the whole system state — in particular the
user set of the persistence store — is exactly as before the call. -/
theorem underage_create_rejected (u : User) (s : SysState) (h : u.age < 18) :
    userService.Create u s = (.error .validationFailure, s) ∧
      ((userService.Create u s).2).db.users = s.db.users := by
  have h1 : userService.Create u s = (.error .validationFailure, s) := by
    unfold userService.Create
    simp [h]
  exact ⟨h1, by rw [h1]⟩

/-- Witness for C2 at a concrete underage user and a concrete state. -/
theorem underage_create_rejected_witness :
    userService.Create bob17 state0 = (.error .validationFailure, state0) ∧
      ((userService.Create bob17 state0).2).db.users = state0.db.users :=
  underage_create_rejected bob17 state0 (by decide)

/-- C4: when `cache.Get "users"` succeeds, `proxyUserRepo.GetAll` returns
the decoded cached list immediately, reports no store access, and leaves
the state unchanged. -/
theorem getAll_cache_hit_no_store (now : Nat) (s : SysState) (l : List User)
    (h : cache.Get now "users" s.cache = .ok l) :
    proxyUserRepo.GetAll now s = (.ok l, s, false) :=
  getAll_of_get_ok now s l h

/-- A cache state holding a decodable one-user list under `"users"`. -/
def cacheHit : CacheState :=
  { redisOk := true, dataExpiration := defaultDataExpiration,
    entries := fun k =>
      if k = "users" then some (.usersJson [{ alice with id := 1 }], 300) else none }

/-- A system state whose store is unreachable but whose cache holds the
list, used to witness cache-only reads. -/
def stateHit : SysState :=
  { db := { users := [{ alice with id := 1 }], nextId := 2, ok := false }, cache := cacheHit }

/-- Witness for C4: a concrete cache hit is served with no store access
even though the store is down. -/
theorem getAll_cache_hit_no_store_witness :
    proxyUserRepo.GetAll 0 stateHit = (.ok [{ alice with id := 1 }], stateHit, false) :=
  getAll_cache_hit_no_store 0 stateHit [{ alice with id := 1 }] rfl

/-- C6: when the store-level create fails, `proxyUserRepo.Create`
propagates the error and the state — in particular every cache key — is
exactly as before the call. -/
theorem proxy_create_store_failure_frame (u : User) (s : SysState) (e : Err)
    (h : (userDb.Create u s.db).1 = .error e) :
    proxyUserRepo.Create u s = (.error e, s) ∧
      ((proxyUserRepo.Create u s).2).cache = s.cache := by
  have hfull := userDb_Create_error u s.db e h
  have h1 : proxyUserRepo.Create u s = (.error e, s) := by
    unfold proxyUserRepo.Create userRepo.Create
    rw [hfull]
  exact ⟨h1, by rw [h1]⟩

/-- A reachable store that already holds `alice`, with a populated cache. -/
def stateDup : SysState :=
  { db := { users := [{ alice with id := 1 }], nextId := 2, ok := true }, cache := cacheHit }

/-- Witness for C6: creating `bob25` after `alice` exists hits the unique
email constraint, the error propagates, and the cache is untouched. -/
theorem proxy_create_store_failure_frame_witness :
    proxyUserRepo.Create bob25 stateDup = (.error .constraintViolation, stateDup) ∧
      ((proxyUserRepo.Create bob25 stateDup).2).cache = stateDup.cache :=
  proxy_create_store_failure_frame bob25 stateDup .constraintViolation rfl

/-- C7 counterexample: `cache.Set` does propagate a serialization
failure — at an unencodable value it returns an error, not success. -/
theorem cache_Set_encode_error_cex :
    (cache.Set 0 "k" .unencodable cache0).1 = .error .encodeFailure ∧
    (cache.Set 0 "k" .unencodable cache0).1 ≠ .ok () := by
  refine ⟨rfl, fun hcontra => ?_⟩
  simp [cache.Set, encodeGoValue] at hcontra

/-- C7 amended: `cache.Set` never propagates a redis write failure — for
any value that serializes it returns success, whatever the cache state —
but a failure to serialize the value is returned to the caller with the
state unchanged. -/
theorem cache_Set_error_policy (now : Nat) (key : String) (v : GoValue) (s : CacheState) :
    (∀ b, encodeGoValue v = .ok b → (cache.Set now key v s).1 = .ok ()) ∧
    (∀ e, encodeGoValue v = .error e → cache.Set now key v s = (.error e, s)) := by
  constructor
  · intro b hb
    simp only [cache.Set, hb]
    split <;> rfl
  · intro e he
    simp only [cache.Set, he]

/-- Witness for C7 amended: a redis write failure (unreachable transport)
is swallowed at a concrete encodable value, and a concrete unencodable
value returns the encoding error. -/
theorem cache_Set_error_policy_witness :
    (cache.Set 0 "users" (.usersList [alice]) { cache0 with redisOk := false }).1 = .ok () ∧
    cache.Set 0 "k" .unencodable { cache0 with redisOk := false } =
      (.error .encodeFailure, { cache0 with redisOk := false }) :=
  ⟨(cache_Set_error_policy 0 "users" (.usersList [alice]) { cache0 with redisOk := false }).1 _ rfl,
   (cache_Set_error_policy 0 "k" .unencodable { cache0 with redisOk := false }).2 _ rfl⟩

/-- `cache.Set` touches nothing but the written key: transport flag,
configured expiration and every other key are unchanged. -/
theorem cache_Set_frame (now : Nat) (key : String) (v : GoValue) (s : CacheState) :
    (cache.Set now key v s).2.redisOk = s.redisOk ∧
    (cache.Set now key v s).2.dataExpiration = s.dataExpiration ∧
    ∀ k, k ≠ key → (cache.Set now key v s).2.entries k = s.entries k := by
  unfold cache.Set
  cases hv : encodeGoValue v with
  | error e => exact ⟨rfl, rfl, fun k _ => rfl⟩
  | ok data =>
    cases hr : s.redisOk with
    | false => exact ⟨hr, rfl, fun k _ => rfl⟩
    | true => exact ⟨rfl, rfl, fun k hk => if_neg hk⟩

/-- C10: `proxyUserRepo.GetAll` never modifies the persistence store —
the whole `DBState` (hence the user set) is unchanged — and its only
state effect is possibly writing the cache key `"users"`: the transport
flag, the configured expiration, and every other cache key are
unchanged. -/
theorem getAll_store_frame (now : Nat) (s : SysState) :
    (proxyUserRepo.GetAll now s).2.1.db = s.db ∧
    (proxyUserRepo.GetAll now s).2.1.cache.redisOk = s.cache.redisOk ∧
    (proxyUserRepo.GetAll now s).2.1.cache.dataExpiration = s.cache.dataExpiration ∧
    ∀ k, k ≠ "users" → (proxyUserRepo.GetAll now s).2.1.cache.entries k = s.cache.entries k := by
  unfold proxyUserRepo.GetAll
  cases h : cache.Get now "users" s.cache with
  | ok l => exact ⟨rfl, rfl, rfl, fun k _ => rfl⟩
  | error e =>
    cases h2 : userRepo.GetAll s.db with
    | error e2 => exact ⟨rfl, rfl, rfl, fun k _ => rfl⟩
    | ok l =>
      obtain ⟨hr, hd, hk⟩ := cache_Set_frame now "users" (.usersList l) s.cache
      exact ⟨rfl, hr, hd, fun k hne => hk k hne⟩

/-- Witness for C10 at a concrete state and the concrete key `"other"`. -/
theorem getAll_store_frame_witness :
    (proxyUserRepo.GetAll 0 state0).2.1.db = state0.db ∧
    (proxyUserRepo.GetAll 0 state0).2.1.cache.entries "other" = state0.cache.entries "other" :=
  ⟨(getAll_store_frame 0 state0).1,
   (getAll_store_frame 0 state0).2.2.2 "other" (by decide)⟩

/-- A reachable store answers `SELECT *` with its rows. -/
theorem userDb_GetAll_ok (d : DBState) (h : d.ok = true) :
    userDb.GetAll d = .ok d.users := by
  unfold userDb.GetAll
  rw [h]
  simp

/-- With the transport up, deleting a key removes its entry and keeps the
transport up. -/
theorem delete_entries_self (key : String) (c : CacheState) (hr : c.redisOk = true) :
    (cache.Delete key c).2.entries key = none ∧ (cache.Delete key c).2.redisOk = true := by
  unfold cache.Delete
  rw [hr]
  exact ⟨if_pos rfl, rfl⟩

/-- Reading an absent key through a live transport is a not-found error. -/
theorem cache_Get_none (now : Nat) (key : String) (c : CacheState)
    (hr : c.redisOk = true) (he : c.entries key = none) :
    cache.Get now key c = .error .notFound := by
  unfold cache.Get
  rw [hr, he]
  simp

/-- Reading through a dead transport is an I/O error. -/
theorem cache_Get_transport_error (now : Nat) (key : String) (c : CacheState)
    (hr : c.redisOk = false) : cache.Get now key c = .error .ioFailure := by
  unfold cache.Get
  rw [hr]
  simp

/-- After `cache.Delete key`, reading `key` always fails — either the key
was removed (not found) or the transport was already down (I/O error). -/
theorem get_after_delete (now : Nat) (key : String) (c : CacheState) :
    ∃ e, cache.Get now key (cache.Delete key c).2 = .error e := by
  cases hr : c.redisOk with
  | false =>
    refine ⟨.ioFailure, cache_Get_transport_error now key _ ?_⟩
    unfold cache.Delete
    rw [hr]
    exact hr
  | true =>
    obtain ⟨h1, h2⟩ := delete_entries_self key c hr
    exact ⟨.notFound, cache_Get_none now key _ h2 h1⟩

/-- C1: whenever `proxyUserRepo.Create` succeeds — from any store and
cache state, including a cache already populated by an earlier
`listAll` — a subsequent `proxyUserRepo.GetAll` returns a list containing
the created user (with its generated id): the create deleted the
`"users"` key, so the read repopulates from the store. -/
theorem create_invalidates_cache (u : User) (s s1 : SysState) (id : Int) (now2 : Nat)
    (h : proxyUserRepo.Create u s = (.ok id, s1)) :
    ∃ l, (proxyUserRepo.GetAll now2 s1).1 = .ok l ∧ { u with id := id } ∈ l := by
  obtain ⟨hdb, hcache⟩ := proxyUserRepo_Create_ok u s id s1 h
  obtain ⟨hok, hid, hshape⟩ := userDb_Create_ok u s.db id s1.db hdb
  obtain ⟨e, hget⟩ := get_after_delete now2 "users" s.cache
  rw [← hcache] at hget
  have hdbok : s1.db.ok = true := by rw [hshape]; exact hok
  have hga : userDb.GetAll s1.db = .ok s1.db.users := userDb_GetAll_ok s1.db hdbok
  refine ⟨s1.db.users, ?_, ?_⟩
  · unfold proxyUserRepo.GetAll userRepo.GetAll
    rw [hget, hga]
  · rw [hshape, hid]
    simp

/-- A fresh adult user with an email unseen in the witness states. -/
def carol : User := { id := 0, name := "Ca", password := "z", email := "c@x.com", age := 30 }

/-- Witness for C1: creating `carol` in a state whose cache already holds
the old one-user list, then listing, yields a list containing `carol`
with the generated id 2. -/
theorem create_invalidates_cache_witness :
    ∃ l, (proxyUserRepo.GetAll 0 (proxyUserRepo.Create carol stateDup).2).1 = .ok l ∧
      { carol with id := 2 } ∈ l :=
  create_invalidates_cache carol stateDup (proxyUserRepo.Create carol stateDup).2 2 0 rfl

/-- C5 counterexample: `alice` (age 21) is created successfully; creating
the underage `bob17` with the same email then fails with a validation
failure, not a constraint violation — the claimed "regardless of the
age" does not hold through the service. -/
theorem dup_email_underage_cex :
    (userService.Create alice state0).1 = .ok 1 ∧
    (userService.Create bob17 (userService.Create alice state0).2).1 =
      .error .validationFailure ∧
    Err.validationFailure ≠ Err.constraintViolation :=
  ⟨rfl, rfl, by decide⟩

/-- C5 amended: once `create(u1)` has succeeded, `create(u2)` with the
same email always fails — with a constraint violation when `u2` is an
adult, and with a validation failure (the age check fires first) when
`u2` is underage. -/
theorem dup_email_second_create_fails (u1 u2 : User) (s s1 : SysState) (id : Int)
    (hemail : u2.email = u1.email)
    (h : userService.Create u1 s = (.ok id, s1)) :
    (18 ≤ u2.age → (userService.Create u2 s1).1 = .error .constraintViolation) ∧
    (u2.age < 18 → (userService.Create u2 s1).1 = .error .validationFailure) := by
  obtain ⟨hage1, hp⟩ := userService_Create_ok u1 s id s1 h
  obtain ⟨hdb, hcache⟩ := proxyUserRepo_Create_ok u1 s id s1 hp
  obtain ⟨hok, hid, hshape⟩ := userDb_Create_ok u1 s.db id s1.db hdb
  have hdbok : s1.db.ok = true := by rw [hshape]; exact hok
  constructor
  · intro hage2
    have hdup : (s1.db.users.any fun v => v.email == u2.email) = true := by
      rw [hshape]
      simp [hemail]
    have hfail : userDb.Create u2 s1.db = (.error .constraintViolation, s1.db) := by
      unfold userDb.Create
      rw [hdbok, hdup]
      simp
    unfold userService.Create
    rw [if_neg (by omega : ¬(u2.age < 18))]
    unfold proxyUserRepo.Create userRepo.Create
    rw [hfail]
  · intro hage2
    unfold userService.Create
    rw [if_pos hage2]

/-- Witness for C5 amended at `alice` then `bob25` (adult, same email). -/
theorem dup_email_second_create_fails_witness :
    (18 ≤ bob25.age →
      (userService.Create bob25 (userService.Create alice state0).2).1 =
        .error .constraintViolation) ∧
    (bob25.age < 18 →
      (userService.Create bob25 (userService.Create alice state0).2).1 =
        .error .validationFailure) :=
  dup_email_second_create_fails alice bob25 state0
    (userService.Create alice state0).2 1 rfl rfl

/-- C8 counterexample: with zero users in the store, `GET /users` answers
`200` with `Content-Type: application/json` but the body is `null`, not
the empty JSON array (`encoding/json` renders the nil slice as `null`). -/
theorem getUsers_empty_null_body_cex :
    (userController.GetAll 0 state0).1 =
      { status := 200, contentType := some "application/json", body := "null\n" } ∧
    "null\n" ≠ "[]\n" ∧ "null\n" ≠ "[]" :=
  ⟨rfl, by decide, by decide⟩

/-- C8 amended: whenever listing succeeds, `GET /users` answers `200 OK`
with `Content-Type: application/json` and body the `encoding/json`
rendering of the user list `{id, name, password, email, age}` — a JSON
array when the list is nonempty, but `null` (not `[]`) when the store
holds zero users. -/
theorem getUsers_success_response (now : Nat) (s : SysState) (users : List User)
    (s1 : SysState) (a : Bool)
    (h : userService.GetAll now s = (.ok users, s1, a)) :
    (userController.GetAll now s).1 =
      { status := 200, contentType := some "application/json",
        body := goEncodeUsers users } := by
  unfold userController.GetAll
  rw [h]

/-- Witness for C8 amended at a concrete one-user state (served from the
populated cache). -/
theorem getUsers_success_response_witness :
    (userController.GetAll 0 stateDup).1 =
      { status := 200, contentType := some "application/json",
        body := goEncodeUsers [{ alice with id := 1 }] } :=
  getUsers_success_response 0 stateDup [{ alice with id := 1 }]
    (userService.GetAll 0 stateDup).2.1 false rfl

/-- Inversion of a successful cache read: the transport was up, the key
held an unexpired payload, and that payload decoded to the result. -/
theorem cache_Get_ok_inv (now : Nat) (key : String) (c : CacheState) (l : List User)
    (h : cache.Get now key c = .ok l) :
    c.redisOk = true ∧ ∃ v expiry, c.entries key = some (v, expiry) ∧
      now < expiry ∧ decodeUsers v = .ok l := by
  unfold cache.Get at h
  split at h
  · simp at h
  · rename_i hnr
    have hr : c.redisOk = true := by simpa using hnr
    refine ⟨hr, ?_⟩
    split at h
    · simp at h
    · rename_i v expiry heq
      split at h
      · rename_i hlt
        exact ⟨v, expiry, heq, hlt, h⟩
      · simp at h

/-- A live, unexpired, decodable entry is served by `cache.Get`. -/
theorem cache_Get_hit (now : Nat) (key : String) (c : CacheState) (v : CacheVal)
    (expiry : Nat) (l : List User) (hr : c.redisOk = true)
    (he : c.entries key = some (v, expiry)) (hlt : now < expiry)
    (hd : decodeUsers v = .ok l) : cache.Get now key c = .ok l := by
  unfold cache.Get
  simp [hr, he, hlt, hd]

/-- Populating `"users"` through a live transport stores the encoded list
with expiry `now` plus the configured expiration, transport still up. -/
theorem cache_Set_users_entry (now : Nat) (l : List User) (c : CacheState)
    (hr : c.redisOk = true) :
    (cache.Set now "users" (.usersList l) c).2.entries "users" =
      some (.usersJson l, now + c.dataExpiration) ∧
    (cache.Set now "users" (.usersList l) c).2.redisOk = true := by
  unfold cache.Set encodeGoValue
  rw [hr]
  constructor
  · show (if "users" = "users"
        then some (CacheVal.usersJson l, now + c.dataExpiration)
        else c.entries "users") = some (CacheVal.usersJson l, now + c.dataExpiration)
    exact if_pos rfl
  · rfl

/-- Postcondition of a successful `proxyUserRepo.GetAll` through a live
transport: any payload then found under `"users"` decodes back to the
returned list, and the transport is still up.  (On a hit the entry is the
one just read; on a miss it is the one just written.) -/
theorem getAll_entry_decodes (now1 : Nat) (s : SysState) (l1 : List User)
    (s1 : SysState) (a1 : Bool) (v : CacheVal) (e : Nat)
    (h : proxyUserRepo.GetAll now1 s = (.ok l1, s1, a1))
    (hr : s.cache.redisOk = true)
    (he : s1.cache.entries "users" = some (v, e)) :
    decodeUsers v = .ok l1 ∧ s1.cache.redisOk = true := by
  unfold proxyUserRepo.GetAll at h
  cases hg : cache.Get now1 "users" s.cache with
  | ok l =>
    rw [hg] at h
    simp only [Prod.mk.injEq, Except.ok.injEq] at h
    obtain ⟨hl, hs, ha⟩ := h
    subst hl
    subst hs
    obtain ⟨hr2, v0, e0, he0, hlt0, hd0⟩ := cache_Get_ok_inv now1 "users" s.cache l hg
    have hpe : (v0, e0) = (v, e) := Option.some.inj (he0.symm.trans he)
    obtain ⟨hv, hee⟩ := Prod.mk.injEq .. ▸ hpe
    subst hv
    exact ⟨hd0, hr2⟩
  | error e0 =>
    rw [hg] at h
    cases hga : userRepo.GetAll s.db with
    | error e2 =>
      rw [hga] at h
      simp at h
    | ok l =>
      rw [hga] at h
      simp only [Prod.mk.injEq, Except.ok.injEq] at h
      obtain ⟨hl, hs, ha⟩ := h
      subst hl
      obtain ⟨hent, hrok⟩ := cache_Set_users_entry now1 l s.cache hr
      rw [← hs] at he
      have he2 : (cache.Set now1 "users" (.usersList l) s.cache).2.entries "users" =
          some (v, e) := he
      rw [hent] at he2
      have hpe := Option.some.inj he2
      obtain ⟨hv, hee⟩ := Prod.mk.injEq .. ▸ hpe
      subst hv
      refine ⟨rfl, ?_⟩
      rw [← hs]
      exact hrok

/-- C3: if a `listAll` through a live cache transport succeeds and leaves
an entry under `"users"` that has not expired by time `now2`, then a
second `listAll` at `now2` — with no intervening `create`, and even with
the store made unavailable — returns the identical list, touches nothing,
and is served without any store access. -/
theorem getAll_idempotent_store_down (s : SysState) (now1 now2 : Nat)
    (l1 : List User) (s1 : SysState) (a1 : Bool) (v : CacheVal) (e : Nat)
    (h : proxyUserRepo.GetAll now1 s = (.ok l1, s1, a1))
    (hr : s.cache.redisOk = true)
    (he : s1.cache.entries "users" = some (v, e))
    (hlt : now2 < e) :
    proxyUserRepo.GetAll now2 { s1 with db := { s1.db with ok := false } } =
      (.ok l1, { s1 with db := { s1.db with ok := false } }, false) := by
  obtain ⟨hd, hr1⟩ := getAll_entry_decodes now1 s l1 s1 a1 v e h hr he
  exact getAll_of_get_ok now2 _ l1 (cache_Get_hit now2 "users" _ v e l1 hr1 he hlt hd)

/-- Witness for C3: after a first `listAll` served from the populated
cache of `stateDup`, a second `listAll` ten seconds later with the store
down still returns the same one-user list without store access. -/
theorem getAll_idempotent_store_down_witness :
    proxyUserRepo.GetAll 10 { stateDup with db := { stateDup.db with ok := false } } =
      (.ok [{ alice with id := 1 }],
       { stateDup with db := { stateDup.db with ok := false } }, false) :=
  getAll_idempotent_store_down stateDup 0 10 [{ alice with id := 1 }] stateDup false
    (.usersJson [{ alice with id := 1 }]) 300 rfl rfl rfl (by decide)

/-- The table rows after a `userDb.Create` are either unchanged (on
failure) or extended by exactly the new row. -/
theorem userDb_Create_users (u : User) (d : DBState) :
    (userDb.Create u d).2.users = d.users ∨
    (userDb.Create u d).2.users = d.users ++ [{ u with id := d.nextId }] := by
  unfold userDb.Create
  split
  · exact Or.inl rfl
  · split
    · exact Or.inl rfl
    · exact Or.inr rfl

/-- One service-interface step preserves "every stored user is 18 or
older". -/
theorem stepOp_age_invariant (s : SysState) (op : Op)
    (h : ∀ u ∈ s.db.users, 18 ≤ u.age) :
    ∀ u ∈ (stepOp s op).db.users, 18 ≤ u.age := by
  cases op with
  | create u0 =>
    simp only [stepOp, userService.Create]
    split
    · exact h
    · rename_i hage
      have hage0 : 18 ≤ u0.age := by omega
      intro u hu
      rw [proxyUserRepo_Create_db] at hu
      rcases userDb_Create_users u0 s.db with hc | hc
      · rw [hc] at hu
        exact h u hu
      · rw [hc] at hu
        rcases List.mem_append.mp hu with h1 | h1
        · exact h u h1
        · rw [List.mem_singleton.mp h1]
          exact hage0
  | getAll now =>
    intro u hu
    simp only [stepOp, userService.GetAll] at hu
    rw [proxyUserRepo_GetAll_db] at hu
    exact h u hu
  | setDbOk b =>
    simp only [stepOp]
    exact fun u hu => h u hu
  | setRedisOk b =>
    simp only [stepOp]
    exact fun u hu => h u hu

/-- The age invariant is preserved by any operation sequence. -/
theorem runOps_age_invariant (ops : List Op) (s : SysState)
    (h : ∀ u ∈ s.db.users, 18 ≤ u.age) :
    ∀ u ∈ (runOps s ops).db.users, 18 ≤ u.age := by
  induction ops generalizing s with
  | nil => exact h
  | cons op rest ih => exact ih (stepOp s op) (stepOp_age_invariant s op h)

/-- C9: in every state reachable from an empty table through the public
service interface — any sequence of creates, listAlls and availability
changes, whatever the initial cache — the age of every stored user is at
least 18. -/
theorem service_age_invariant (ops : List Op) (c : CacheState) (n : Int) (b : Bool) :
    ∀ u ∈ (runOps { db := { users := [], nextId := n, ok := b }, cache := c } ops).db.users,
      18 ≤ u.age :=
  runOps_age_invariant ops _ (by intro u hu; simp at hu)

/-- Witness for C9: after creating `carol` from the empty state, her
stored row is present and is 18 or older. -/
theorem service_age_invariant_witness :
    { carol with id := 1 } ∈
      (runOps { db := { users := [], nextId := 1, ok := true }, cache := cache0 }
        [.create carol]).db.users ∧
    18 ≤ ({ carol with id := 1 } : User).age :=
  ⟨by decide,
   service_age_invariant [.create carol] cache0 1 true { carol with id := 1 } (by decide)⟩
